import Mathlib

/-!
# Resolver semantics of the `graphql-go-notes` demos

A shallow embedding of the resolver code of `main-3`, `main-4` and `main-5`
and the properties the specification states about it.

Modelling conventions, used throughout:

* `graphql.ID` is a Go string type and is modelled by `String`.
* A Go `error` result is `GoError`; `none` is the nil error.
* A Go slice value is a `Slice`: either the nil slice or a non-nil slice with
  its elements. Capacity and backing arrays are not modelled.
* A package-level variable that a method reads is passed as an argument named
  like the variable (`users`); a method of a package whose variable is written
  by some method returns the variable's value after the call (`Ret.users`).
* In `main-5` the store holds `*User` and `*Note`. The store only ever holds
  addresses of distinct composite literals (the package-level literal and the
  note allocated by `CreateNote`), so stored users and notes are modelled by
  value. The `note` pointer of a `NoteResolver` is modelled as an `Option`,
  because `CreateNote` builds a resolver from a variable that may still be nil.
* `for _, x := range xs` with an early `return` is a structural recursion over
  the elements, in order.
* The engine behind `schema.Exec` is not among the source files. Where a property
  is about a schema field rather than a resolver method (`main-3`, the enum-typed
  argument), the engine step is modelled from the specification and marked so.
-/

set_option autoImplicit false

/-- Go string type `graphql.ID`. -/
abbrev ID := String

/-- A Go `error` value; `none` is `nil`. -/
abbrev GoError := Option String

/-- A Go slice value: the nil slice, or a non-nil slice holding the given elements. -/
inductive Slice (α : Type) where
  | nil : Slice α
  | mk : List α → Slice α
  deriving DecidableEq, Repr

namespace Slice

variable {α : Type}

/-- The elements of a slice in index order: what `range` visits. The nil slice has none. -/
def elems : Slice α → List α
  | nil => []
  | mk xs => xs

/-- Go `s == nil`. -/
def isNil : Slice α → Bool
  | nil => true
  | mk _ => false

/-- Go `append(s, x)`: always a non-nil slice. -/
def append (s : Slice α) (x : α) : Slice α :=
  mk (s.elems ++ [x])

end Slice

/-! ## main-3 -/

namespace Main3

/-- The symbols of `enum TimeOfDay` declared in `schemaString`. -/
def TimeOfDay : List String := ["MORNING", "AFTERNOON", "EVENING"]

/-- The map literal `timesOfDay`, as its key/value entries. -/
def timesOfDay : List (String × String) :=
  [("MORNING", "Good morning"),
   ("AFTERNOON", "Good afternoon"),
   ("EVENING", "Good evening")]

/-- Go `v, ok := m[k]` on a `map[string]string`: the zero value `""` and `false`
when the key is absent. -/
def mapIndex (m : List (String × String)) (k : String) : String × Bool :=
  match m.lookup k with
  | some v => (v, true)
  | none => ("", false)

/-- Argument struct of `GreetPersonTimeOfDay`. -/
structure personTimeOfDayArgs where
  Person : String
  TimeOfDay : String
  deriving DecidableEq, Repr

/-- Method `(*rootResolver).GreetPersonTimeOfDay`; the unused context argument is dropped.
`fmt.Sprintf("%s, %s!", a, b)` is `a ++ ", " ++ b ++ "!"`. -/
def rootResolver.GreetPersonTimeOfDay (args : personTimeOfDayArgs) : String :=
  let (timeOfDay, ok) := mapIndex timesOfDay args.TimeOfDay
  let timeOfDay := if !ok then "Go to bed" else timeOfDay
  timeOfDay ++ ", " ++ args.Person ++ "!"

/-- A coercion failure of the engine: the offending value and the field path. -/
structure CoercionError where
  value : String
  path : List String
  deriving DecidableEq, Repr

/-- Modelled from the spec: the enum rule of the engine's argument coercer, which
`schema.Exec` runs and whose code is not among the source files. "Enum coercion requires
the raw value to be a string matching one declared symbol exactly (case-sensitive);
otherwise CoercionError naming the offending value and the field path." -/
def coerceEnum (symbols : List String) (raw : String) (path : List String) :
    Except CoercionError String :=
  if raw ∈ symbols then Except.ok raw else Except.error ⟨raw, path⟩

/-- Modelled from the spec: the engine executing the schema field
`greetPersonTimeOfDay(person: String!, timeOfDay: TimeOfDay!): String!`, whose code is not
among the source files. It coerces the supplied `timeOfDay` against `enum TimeOfDay` and
only then invokes the bound resolver `GreetPersonTimeOfDay` with the coerced arguments; a
coercion failure is the field's result and the resolver is not invoked. -/
def greetPersonTimeOfDay (person timeOfDay : String) : Except CoercionError String :=
  match coerceEnum TimeOfDay timeOfDay ["greetPersonTimeOfDay"] with
  | Except.error e => Except.error e
  | Except.ok tod => Except.ok (rootResolver.GreetPersonTimeOfDay ⟨person, tod⟩)

end Main3

/-! ## main-4 -/

namespace Main4

/-- Struct `Note`. -/
structure Note where
  NoteID : ID
  Data : String
  deriving DecidableEq, Repr

/-- Struct `User`. -/
structure User where
  UserID : ID
  Username : String
  Emoji : String
  Notes : Slice Note
  deriving DecidableEq, Repr

/-- The composite literal `Note{}`. -/
def Note.zero : Note := ⟨"", ""⟩

/-- The composite literal `User{}`. -/
def User.zero : User := ⟨"", "", "", Slice.nil⟩

/-- Initial value of the package-level variable `users`. -/
def users : List User :=
  [ { UserID := "u-001", Username := "CR7", Emoji := "🇵🇹",
      Notes := Slice.mk
        [ ⟨"n-001", "Olá Mundo!"⟩,
          ⟨"n-002", "Olá novamente, mundo!"⟩,
          ⟨"n-003", "Olá, escuridão!"⟩ ] },
    { UserID := "u-002", Username := "Sergio_Ramos", Emoji := "🇪🇸",
      Notes := Slice.mk
        [ ⟨"n-004", "!Hola Mundo!"⟩,
          ⟨"n-005", "¡Hola de nuevo mundo!"⟩,
          ⟨"n-006", "¡Hola oscuridad!"⟩ ] },
    { UserID := "u-003", Username := "michaelmiranda_", Emoji := "🇺🇸",
      Notes := Slice.mk
        [ ⟨"n-007", "Hello, world!"⟩,
          ⟨"n-008", "Hello again, world!"⟩,
          ⟨"n-009", "Hello, darkness!"⟩ ] } ]

/-- Argument struct `struct{ UserID graphql.ID }`. -/
structure UserArgs where
  UserID : ID
  deriving DecidableEq, Repr

/-- Argument struct `struct{ NoteID graphql.ID }`. -/
structure NoteArgs where
  NoteID : ID
  deriving DecidableEq, Repr

/-- The loop of `rootResolver.User` over the remaining users, followed by the
fall-through `return User{}, nil`. -/
def userLoop (args : UserArgs) : List User → User × GoError
  | [] => (User.zero, none)
  | user :: rest =>
    if args.UserID = user.UserID then (user, none) else userLoop args rest

/-- Method `(*rootResolver).User`. -/
def rootResolver.User (users : List Main4.User) (args : UserArgs) : Main4.User × GoError :=
  userLoop args users

/-- The test `reflect.ValueOf(user).IsZero()` on a `User`: every field is zero, that is
the three strings are empty and the slice is nil. -/
def User.IsZero (user : User) : Bool :=
  user.UserID == "" && user.Username == "" && user.Emoji == "" && user.Notes.isNil

/-- Method `(*rootResolver).Notes`. -/
def rootResolver.Notes (users : List Main4.User) (args : UserArgs) : Slice Note × GoError :=
  let (user, err) := rootResolver.User users args
  if user.IsZero || err.isSome then (Slice.nil, err) else (user.Notes, none)

/-- The inner loop of `rootResolver.Note` over the remaining notes of one user:
`some note` when the loop returns `note, nil` from the method, `none` when it runs out. -/
def noteScan (args : NoteArgs) : List Note → Option Note
  | [] => none
  | note :: rest =>
    if args.NoteID = note.NoteID then some note else noteScan args rest

/-- The outer loop of `rootResolver.Note` over the remaining users, followed by the
fall-through `return Note{}, nil`. -/
def noteLoop (args : NoteArgs) : List User → Note × GoError
  | [] => (Note.zero, none)
  | user :: rest =>
    match noteScan args user.Notes.elems with
    | some note => (note, none)
    | none => noteLoop args rest

/-- Method `(*rootResolver).Note`. -/
def rootResolver.Note (users : List Main4.User) (args : NoteArgs) : Main4.Note × GoError :=
  noteLoop args users

end Main4

/-! ## main-5 -/

namespace Main5

/-- Struct `Note`. -/
structure Note where
  NoteID : ID
  Data : String
  deriving DecidableEq, Repr

/-- Struct `NoteInput`. -/
structure NoteInput where
  Data : String
  deriving DecidableEq, Repr

/-- Struct `User`; the `[]*Note` field holds non-nil notes, modelled by value. -/
structure User where
  UserID : ID
  Username : String
  Emoji : String
  Notes : Slice Note
  deriving DecidableEq, Repr

/-- Initial value of the package-level variable `users`, with the string literals
exactly as they stand in the source file. -/
def users : List User :=
  [ { UserID := "u-001", Username := "CR7", Emoji := "ðŸ‡µðŸ‡¹",
      Notes := Slice.mk
        [ ⟨"n-001", "OlÃ¡ Mundo!"⟩,
          ⟨"n-002", "OlÃ¡ novamente, mundo!"⟩,
          ⟨"n-003", "OlÃ¡, escuridÃ£o!"⟩ ] },
    { UserID := "u-002", Username := "Sergio_Ramos", Emoji := "ðŸ‡ªðŸ‡¸",
      Notes := Slice.mk
        [ ⟨"n-004", "!Hola Mundo!"⟩,
          ⟨"n-005", "Â¡Hola de nuevo mundo!"⟩,
          ⟨"n-006", "Â¡Hola oscuridad!"⟩ ] },
    { UserID := "u-003", Username := "michaelmiranda_", Emoji := "ðŸ‡ºðŸ‡¸",
      Notes := Slice.mk
        [ ⟨"n-007", "Hello, world!"⟩,
          ⟨"n-008", "Hello again, world!"⟩,
          ⟨"n-009", "Hello, darkness!"⟩ ] } ]

/-- Struct `UserResolver`; its `user` pointer is only ever taken from the store. -/
structure UserResolver where
  user : User
  deriving DecidableEq, Repr

/-- Struct `NoteResolver`; `note = none` is the nil pointer. -/
structure NoteResolver where
  note : Option Note
  deriving DecidableEq, Repr

/-- What a `rootResolver` method leaves behind: the returned value, the returned error
and the package-level `users` after the call. -/
structure Ret (α : Type) where
  val : α
  err : GoError
  users : List User

/-- Argument struct `struct{ UserID graphql.ID }`. -/
structure UserArgs where
  UserID : ID
  deriving DecidableEq, Repr

/-- Argument struct `struct{ NoteID graphql.ID }`. -/
structure NoteArgs where
  NoteID : ID
  deriving DecidableEq, Repr

/-- Struct `CreateNoteArgs`. -/
structure CreateNoteArgs where
  UserID : ID
  Note : NoteInput
  deriving DecidableEq, Repr

/-- Method `(*NoteResolver).NoteID`: `nr.note.NoteID`; `none` is the nil-pointer
dereference panic. -/
def NoteResolver.NoteID (nr : NoteResolver) : Option ID :=
  match nr.note with
  | none => none
  | some note => some note.NoteID

/-- Method `(*NoteResolver).Data`: `nr.note.Data`; `none` is the nil-pointer
dereference panic. -/
def NoteResolver.Data (nr : NoteResolver) : Option String :=
  match nr.note with
  | none => none
  | some note => some note.Data

/-- Method `(*UserResolver).UserID`. -/
def UserResolver.UserID (ur : UserResolver) : ID := ur.user.UserID

/-- Method `(*UserResolver).Username`. -/
def UserResolver.Username (ur : UserResolver) : String := ur.user.Username

/-- Method `(*UserResolver).Emoji`. -/
def UserResolver.Emoji (ur : UserResolver) : String := ur.user.Emoji

/-- The loop of `UserResolver.Notes` over the remaining notes, with the current value of
`noteRxs`. -/
def noteRxsLoop : List Note → Slice NoteResolver → Slice NoteResolver
  | [], noteRxs => noteRxs
  | note :: rest, noteRxs => noteRxsLoop rest (noteRxs.append ⟨some note⟩)

/-- Method `(*UserResolver).Notes`. -/
def UserResolver.Notes (ur : UserResolver) : Slice NoteResolver :=
  noteRxsLoop ur.user.Notes.elems Slice.nil

/-- The loop of `rootResolver.Users` over the remaining users, with the current value of
`userRxs`. -/
def userRxsLoop : List User → Slice UserResolver → Slice UserResolver
  | [], userRxs => userRxs
  | user :: rest, userRxs => userRxsLoop rest (userRxs.append ⟨user⟩)

/-- Method `(*rootResolver).Users`. -/
def rootResolver.Users (users : List Main5.User) : Ret (Slice UserResolver) :=
  ⟨userRxsLoop users Slice.nil, none, users⟩

/-- The loop of `rootResolver.User` over the remaining users, followed by the
fall-through `return nil, nil`. -/
def userLoop (args : UserArgs) : List User → Option UserResolver × GoError
  | [] => (none, none)
  | user :: rest =>
    if args.UserID = user.UserID then (some ⟨user⟩, none) else userLoop args rest

/-- Method `(*rootResolver).User`. -/
def rootResolver.User (users : List Main5.User) (args : UserArgs) : Ret (Option UserResolver) :=
  let r := userLoop args users
  ⟨r.1, r.2, users⟩

/-- Method `(*rootResolver).Notes`. -/
def rootResolver.Notes (users : List Main5.User) (args : UserArgs) : Ret (Slice NoteResolver) :=
  let r := rootResolver.User users args
  match r.val, r.err with
  | some user, none => ⟨user.Notes, none, r.users⟩
  | _, err => ⟨Slice.nil, err, r.users⟩

/-- The inner loop of `rootResolver.Note` over the remaining notes of one user:
`some note` when the loop returns from the method with that note, `none` when it runs
out. -/
def noteScan (args : NoteArgs) : List Note → Option Note
  | [] => none
  | note :: rest =>
    if args.NoteID = note.NoteID then some note else noteScan args rest

/-- The outer loop of `rootResolver.Note` over the remaining users, followed by the
fall-through `return nil, nil`. -/
def noteLoop (args : NoteArgs) : List User → Option NoteResolver × GoError
  | [] => (none, none)
  | user :: rest =>
    match noteScan args user.Notes.elems with
    | some note => (some ⟨some note⟩, none)
    | none => noteLoop args rest

/-- Method `(*rootResolver).Note`. -/
def rootResolver.Note (users : List Main5.User) (args : NoteArgs) : Ret (Option NoteResolver) :=
  let r := noteLoop args users
  ⟨r.1, r.2, users⟩

/-- The loop of `rootResolver.CreateNote` over the remaining users, with the current
value of the local `note`: the users as the loop leaves them and the final `note`. -/
def createLoop (args : CreateNoteArgs) : List User → Option Note → List User × Option Note
  | [], note => ([], note)
  | user :: rest, note =>
    if args.UserID = user.UserID then
      let created : Note := { NoteID := "n-010", Data := args.Note.Data }
      let r := createLoop args rest (some created)
      ({ user with Notes := user.Notes.append created } :: r.1, r.2)
    else
      let r := createLoop args rest note
      (user :: r.1, r.2)

/-- Method `(*rootResolver).CreateNote`: always returns a non-nil `*NoteResolver`. -/
def rootResolver.CreateNote (users : List Main5.User) (args : CreateNoteArgs) :
    Ret (Option NoteResolver) :=
  let r := createLoop args users none
  ⟨some ⟨r.2⟩, none, r.1⟩

end Main5

/-! ## Properties of main-3 -/

namespace Main3

/-- C5: for every person `p` and every `timeOfDay` among the declared symbols MORNING,
AFTERNOON, EVENING, the map lookup succeeds (the "Go to bed" branch is not taken) and
`GreetPersonTimeOfDay` returns "Good morning, p!", "Good afternoon, p!", "Good evening, p!"
respectively; the keys of `timesOfDay` are exactly the declared symbols; and for "Michael"
and "AFTERNOON" the result is "Good afternoon, Michael!". -/
theorem GreetPersonTimeOfDay_declared (p tod : String) (h : tod ∈ TimeOfDay) :
    (mapIndex timesOfDay tod).2 = true ∧
    (tod = "MORNING" →
      rootResolver.GreetPersonTimeOfDay ⟨p, tod⟩ = "Good morning, " ++ p ++ "!") ∧
    (tod = "AFTERNOON" →
      rootResolver.GreetPersonTimeOfDay ⟨p, tod⟩ = "Good afternoon, " ++ p ++ "!") ∧
    (tod = "EVENING" →
      rootResolver.GreetPersonTimeOfDay ⟨p, tod⟩ = "Good evening, " ++ p ++ "!") ∧
    (∀ k : String, (∃ v, (k, v) ∈ timesOfDay) ↔ k ∈ TimeOfDay) ∧
    rootResolver.GreetPersonTimeOfDay ⟨"Michael", "AFTERNOON"⟩ = "Good afternoon, Michael!" := by
  refine ⟨?_, ?_, ?_, ?_, ?_, ?_⟩
  · simp only [TimeOfDay, List.mem_cons, List.mem_singleton, List.mem_nil_iff, or_false] at h
    rcases h with h | h | h <;> subst h <;> decide
  · rintro rfl
    simp [rootResolver.GreetPersonTimeOfDay, mapIndex, timesOfDay, List.lookup]
  · rintro rfl
    simp [rootResolver.GreetPersonTimeOfDay, mapIndex, timesOfDay, List.lookup]
  · rintro rfl
    simp [rootResolver.GreetPersonTimeOfDay, mapIndex, timesOfDay, List.lookup]
  · intro k
    simp only [timesOfDay, TimeOfDay, List.mem_cons, List.mem_singleton, Prod.mk.injEq,
      List.mem_nil_iff, or_false]
    constructor
    · rintro ⟨v, h | h | h⟩
      · exact Or.inl h.1
      · exact Or.inr (Or.inl h.1)
      · exact Or.inr (Or.inr h.1)
    · rintro (h | h | h)
      · exact ⟨"Good morning", Or.inl ⟨h, rfl⟩⟩
      · exact ⟨"Good afternoon", Or.inr (Or.inl ⟨h, rfl⟩)⟩
      · exact ⟨"Good evening", Or.inr (Or.inr ⟨h, rfl⟩)⟩
  · decide

/-- The instance of `GreetPersonTimeOfDay_declared` that the demo query runs. -/
theorem GreetPersonTimeOfDay_declared_witness :
    "AFTERNOON" ∈ TimeOfDay ∧
    rootResolver.GreetPersonTimeOfDay ⟨"Michael", "AFTERNOON"⟩
      = "Good afternoon, " ++ "Michael" ++ "!" :=
  ⟨by decide, (GreetPersonTimeOfDay_declared "Michael" "AFTERNOON" (by decide)).2.2.1 rfl⟩

/-- C6: a `timeOfDay` value that is not one of the declared symbols MORNING, AFTERNOON,
EVENING is an error and never a greeting: for every person `p` and every such value the
field `greetPersonTimeOfDay` yields the coercion failure naming that value, and so no
result string at all. -/
theorem greetPersonTimeOfDay_undeclared_fails (p tod : String) (h : tod ∉ TimeOfDay) :
    greetPersonTimeOfDay p tod = Except.error ⟨tod, ["greetPersonTimeOfDay"]⟩ ∧
    ∀ s : String, greetPersonTimeOfDay p tod ≠ Except.ok s := by
  have hfail : greetPersonTimeOfDay p tod = Except.error ⟨tod, ["greetPersonTimeOfDay"]⟩ := by
    simp [greetPersonTimeOfDay, coerceEnum, h]
  refine ⟨hfail, ?_⟩
  intro s hs
  rw [hfail] at hs
  cases hs

/-- The instance of `greetPersonTimeOfDay_undeclared_fails` at "Michael" and "NOON". -/
theorem greetPersonTimeOfDay_undeclared_fails_witness :
    "NOON" ∉ TimeOfDay ∧
    greetPersonTimeOfDay "Michael" "NOON"
      = Except.error ⟨"NOON", ["greetPersonTimeOfDay"]⟩ :=
  ⟨by decide, (greetPersonTimeOfDay_undeclared_fails "Michael" "NOON" (by decide)).1⟩

end Main3

/-! ## Properties of main-4 -/

namespace Main4

/-- The user loop never produces an error. -/
theorem userLoop_err (args : UserArgs) (us : List User) : (userLoop args us).2 = none := by
  induction us with
  | nil => rfl
  | cons u rest ih =>
    unfold userLoop
    split
    · rfl
    · exact ih

/-- The user loop returns the first user with the requested `UserID`, and `User{}` when
there is none. -/
theorem userLoop_fst (args : UserArgs) (us : List User) :
    (userLoop args us).1 =
      (match us.find? (fun u => decide (args.UserID = u.UserID)) with
       | some u => u
       | none => User.zero) := by
  induction us with
  | nil => rfl
  | cons u rest ih =>
    unfold userLoop
    by_cases h : args.UserID = u.UserID
    · simp [h]
    · simp [h, ih]

/-- The inner note loop is a search for the first note with the requested `NoteID`. -/
theorem noteScan_eq_find (args : NoteArgs) (ns : List Note) :
    noteScan args ns = ns.find? (fun n => decide (args.NoteID = n.NoteID)) := by
  induction ns with
  | nil => rfl
  | cons n rest ih =>
    unfold noteScan
    by_cases h : args.NoteID = n.NoteID
    · simp [h]
    · simp [h, ih]

/-- The note loop never produces an error. -/
theorem noteLoop_err (args : NoteArgs) (us : List User) : (noteLoop args us).2 = none := by
  induction us with
  | nil => rfl
  | cons u rest ih =>
    unfold noteLoop
    split
    · rfl
    · exact ih

/-- The note loop returns the first matching note of the users' notes laid end to end, and
`Note{}` when there is none. -/
theorem noteLoop_fst (args : NoteArgs) (us : List User) :
    (noteLoop args us).1 =
      (match (us.flatMap (fun u => u.Notes.elems)).find?
          (fun n => decide (args.NoteID = n.NoteID)) with
       | some n => n
       | none => Note.zero) := by
  induction us with
  | nil => rfl
  | cons u rest ih =>
    unfold noteLoop
    rw [noteScan_eq_find]
    simp only [List.flatMap_cons, List.find?_append]
    cases hfind : u.Notes.elems.find? (fun n => decide (args.NoteID = n.NoteID)) with
    | some n => simp
    | none => simpa using ih

/-- C7: when some stored user holds a note with the requested `NoteID`, `Note` returns,
with a nil error, a note with that `NoteID`, and it is the first such note in scan order:
the users' notes laid end to end (users in stored order, each user's notes in stored order)
split as `before ++ returned :: after` with no note of the requested `NoteID` in `before`.
The returned value is the stored note itself, so its `Data` is the stored one. On the
initial store, "n-008" yields the note with `Data` "Hello again, world!". -/
theorem Note_returns_first_match (users : List User) (noteID : ID)
    (h : ∃ u ∈ users, ∃ n ∈ u.Notes.elems, n.NoteID = noteID) :
    (rootResolver.Note users ⟨noteID⟩).2 = none ∧
    (rootResolver.Note users ⟨noteID⟩).1.NoteID = noteID ∧
    (∃ before after : List Note,
      users.flatMap (fun u => u.Notes.elems)
        = before ++ (rootResolver.Note users ⟨noteID⟩).1 :: after ∧
      ∀ n ∈ before, n.NoteID ≠ noteID) ∧
    rootResolver.Note Main4.users ⟨"n-008"⟩ = (⟨"n-008", "Hello again, world!"⟩, none) := by
  obtain ⟨u, hu, n, hn, hid⟩ := h
  have hsome : ((users.flatMap (fun u => u.Notes.elems)).find?
      (fun n => decide (noteID = n.NoteID))).isSome := by
    rw [List.find?_isSome]
    exact ⟨n, List.mem_flatMap.mpr ⟨u, hu, hn⟩, by simp [hid]⟩
  obtain ⟨m, hm⟩ := Option.isSome_iff_exists.mp hsome
  have hfst : (rootResolver.Note users ⟨noteID⟩).1 = m := by
    show (noteLoop ⟨noteID⟩ users).1 = m
    rw [noteLoop_fst]
    simp only [hm]
  obtain ⟨hp, before, after, hsplit, hbefore⟩ := List.find?_eq_some.mp hm
  refine ⟨noteLoop_err _ _, ?_, ⟨before, after, ?_, ?_⟩, by decide⟩
  · rw [hfst]
    exact (of_decide_eq_true hp).symm
  · rw [hfst]
    exact hsplit
  · intro k hk hkid
    have := hbefore k hk
    simp [hkid] at this

/-- The instance of `Note_returns_first_match` at the initial store and "n-005". -/
theorem Note_returns_first_match_witness :
    (∃ u ∈ Main4.users, ∃ n ∈ u.Notes.elems, n.NoteID = "n-005") ∧
    (rootResolver.Note Main4.users ⟨"n-005"⟩).1.NoteID = "n-005" :=
  ⟨by decide, (Note_returns_first_match Main4.users "n-005" (by decide)).2.1⟩

/-- C8: for every store and every `userID`, `Notes` returns a nil error and exactly the
`Notes` field of the value `User` returns for the same argument: the notes of the first
stored user whose `UserID` matches, and the nil slice when no user matches. The all-zero
`User{}` stored under the empty ID is reported as not found by the `IsZero` test, and the
nil slice returned for it is again its `Notes` field. -/
theorem Notes_eq_User_Notes (users : List User) (userID : ID) :
    (rootResolver.Notes users ⟨userID⟩).2 = none ∧
    (rootResolver.Notes users ⟨userID⟩).1 = (rootResolver.User users ⟨userID⟩).1.Notes ∧
    (rootResolver.Notes users ⟨userID⟩).1 =
      (match users.find? (fun u => decide (userID = u.UserID)) with
       | some u => u.Notes
       | none => Slice.nil) ∧
    (User.zero.IsZero = true ∧
      ∀ rest : List User,
        rootResolver.Notes (User.zero :: rest) ⟨""⟩ = (User.zero.Notes, none)) := by
  have herr : (rootResolver.User users ⟨userID⟩).2 = none := userLoop_err _ _
  have hzero : ∀ v : User, v.IsZero = true → v.Notes = Slice.nil := by
    intro v hv
    simp only [User.IsZero, Bool.and_eq_true] at hv
    cases hN : v.Notes with
    | nil => rfl
    | mk xs => simp [hN, Slice.isNil] at hv
  have hval : (rootResolver.Notes users ⟨userID⟩).1
      = (rootResolver.User users ⟨userID⟩).1.Notes := by
    unfold rootResolver.Notes
    by_cases hz : (rootResolver.User users ⟨userID⟩).1.IsZero = true
    · simp [hz, hzero _ hz]
    · simp [hz, herr]
  refine ⟨?_, hval, ?_, by decide, ?_⟩
  · unfold rootResolver.Notes
    by_cases hz : (rootResolver.User users ⟨userID⟩).1.IsZero = true
    · simp [hz, herr]
    · simp [hz, herr]
  · rw [hval]
    show (userLoop ⟨userID⟩ users).1.Notes = _
    rw [userLoop_fst]
    cases users.find? (fun u => decide (userID = u.UserID)) <;> rfl
  · intro rest
    rfl

end Main4

/-! ## Properties of main-5 -/

namespace Main5

/-- The `noteRxs` loop appends one resolver per remaining note, in order. -/
theorem noteRxsLoop_elems (ns : List Note) (acc : Slice NoteResolver) :
    (noteRxsLoop ns acc).elems = acc.elems ++ ns.map (fun n => (⟨some n⟩ : NoteResolver)) := by
  induction ns generalizing acc with
  | nil => simp [noteRxsLoop]
  | cons n rest ih =>
    unfold noteRxsLoop
    rw [ih]
    simp [Slice.append, Slice.elems]

/-- The resolvers `UserResolver.Notes` returns wrap the user's notes, one each, in order. -/
theorem UserResolver_Notes_elems (ur : UserResolver) :
    (UserResolver.Notes ur).elems
      = ur.user.Notes.elems.map (fun n => (⟨some n⟩ : NoteResolver)) := by
  unfold UserResolver.Notes
  rw [noteRxsLoop_elems]
  simp [Slice.elems]

/-- The pointer-returning user loop never produces an error. -/
theorem userLoop_no_error (args : UserArgs) (us : List User) :
    (userLoop args us).2 = none := by
  induction us with
  | nil => rfl
  | cons u rest ih =>
    unfold userLoop
    split
    · rfl
    · exact ih

/-- The pointer-returning user loop yields a resolver for the first user with the requested
`UserID`, and nil when there is none. -/
theorem userLoop_val (args : UserArgs) (us : List User) :
    (userLoop args us).1 =
      (us.find? (fun u => decide (args.UserID = u.UserID))).map UserResolver.mk := by
  induction us with
  | nil => rfl
  | cons u rest ih =>
    unfold userLoop
    by_cases h : args.UserID = u.UserID
    · simp [h]
    · simp [h, ih]

/-- The inner note loop of `main-5` is a search for the first note with the requested
`NoteID`. -/
theorem noteScan_is_find (args : NoteArgs) (ns : List Note) :
    noteScan args ns = ns.find? (fun n => decide (args.NoteID = n.NoteID)) := by
  induction ns with
  | nil => rfl
  | cons n rest ih =>
    unfold noteScan
    by_cases h : args.NoteID = n.NoteID
    · simp [h]
    · simp [h, ih]

/-- The pointer-returning note loop never produces an error. -/
theorem noteLoop_no_error (args : NoteArgs) (us : List User) :
    (noteLoop args us).2 = none := by
  induction us with
  | nil => rfl
  | cons u rest ih =>
    unfold noteLoop
    split
    · rfl
    · exact ih

/-- The pointer-returning note loop yields a resolver wrapping the first matching note of
the users' notes laid end to end, and nil when there is none. -/
theorem noteLoop_val (args : NoteArgs) (us : List User) :
    (noteLoop args us).1 =
      ((us.flatMap (fun u => u.Notes.elems)).find?
        (fun n => decide (args.NoteID = n.NoteID))).map (fun n => (⟨some n⟩ : NoteResolver)) := by
  induction us with
  | nil => rfl
  | cons u rest ih =>
    unfold noteLoop
    rw [noteScan_is_find]
    simp only [List.flatMap_cons, List.find?_append]
    cases hfind : u.Notes.elems.find? (fun n => decide (args.NoteID = n.NoteID)) with
    | some n => simp
    | none => simpa using ih

/-- The users as the `CreateNote` loop leaves them: every user with the requested `UserID`
has the new note appended, every other user is as before. -/
theorem createLoop_users (args : CreateNoteArgs) (us : List User) (note : Option Note) :
    (createLoop args us note).1 =
      us.map (fun u =>
        if args.UserID = u.UserID then
          { u with Notes := Slice.mk (u.Notes.elems ++ [⟨"n-010", args.Note.Data⟩]) }
        else u) := by
  induction us generalizing note with
  | nil => rfl
  | cons u rest ih =>
    unfold createLoop
    by_cases h : args.UserID = u.UserID
    · simp [h, ih, Slice.append]
    · simp [h, ih]

/-- The local `note` after the `CreateNote` loop when some user matches. -/
theorem createLoop_note_of_match (args : CreateNoteArgs) (us : List User) (note : Option Note)
    (h : ∃ u ∈ us, u.UserID = args.UserID) :
    (createLoop args us note).2 = some ⟨"n-010", args.Note.Data⟩ := by
  induction us generalizing note with
  | nil => simp at h
  | cons u rest ih =>
    unfold createLoop
    by_cases hu : args.UserID = u.UserID
    · simp only [hu, if_true]
      by_cases hr : ∃ v ∈ rest, v.UserID = args.UserID
      · exact ih _ hr
      · have hnone : ∀ (n : Option Note), (createLoop args rest n).2 = n := by
          intro n
          clear ih h
          induction rest generalizing n with
          | nil => rfl
          | cons w ws ihw =>
            unfold createLoop
            have hw : ¬ args.UserID = w.UserID := fun e => hr ⟨w, by simp, e.symm⟩
            simp only [hw, if_false]
            exact ihw (fun ⟨v, hv, hve⟩ => hr ⟨v, List.mem_cons_of_mem _ hv, hve⟩) n
        exact hnone _
    · simp only [hu, if_false]
      apply ih
      obtain ⟨v, hv, hve⟩ := h
      rcases List.mem_cons.mp hv with rfl | hv
      · exact absurd hve.symm hu
      · exact ⟨v, hv, hve⟩

/-- What `Notes` returns on a store: a nil error and, for the first user with the requested
`UserID`, one resolver per note of that user, in order. -/
theorem Notes_of_find (us : List User) (userID : ID) (u : User)
    (h : us.find? (fun v => decide (userID = v.UserID)) = some u) :
    (rootResolver.Notes us ⟨userID⟩).err = none ∧
    (rootResolver.Notes us ⟨userID⟩).val.elems
      = u.Notes.elems.map (fun n => (⟨some n⟩ : NoteResolver)) := by
  have hv : (userLoop ⟨userID⟩ us).1 = some ⟨u⟩ := by rw [userLoop_val]; simp [h]
  have he : (userLoop ⟨userID⟩ us).2 = none := userLoop_no_error _ _
  constructor
  · unfold rootResolver.Notes rootResolver.User
    simp only [hv, he]
  · unfold rootResolver.Notes rootResolver.User
    simp only [hv, he]
    exact UserResolver_Notes_elems ⟨u⟩

/-- C1: when some stored user has the requested `UserID`, `CreateNote` returns a nil error
and a resolver whose `Data()` is the input's `Data`; afterwards the stored users are the
previous ones in the same order, every user with that `UserID` having as `Notes` its
previous notes followed by the one created note (whose `Data` is the input's `Data`); and
a subsequent `Notes` for that `UserID` returns, with a nil error, a list that ends with a
resolver of the created note. -/
theorem CreateNote_appends (users : List User) (userID : ID) (note : NoteInput)
    (h : ∃ u ∈ users, u.UserID = userID) :
    (rootResolver.CreateNote users ⟨userID, note⟩).err = none ∧
    ∃ created : Note,
      created.Data = note.Data ∧
      (rootResolver.CreateNote users ⟨userID, note⟩).val = some ⟨some created⟩ ∧
      NoteResolver.Data ⟨some created⟩ = some note.Data ∧
      (rootResolver.CreateNote users ⟨userID, note⟩).users =
        users.map (fun u =>
          if u.UserID = userID then
            { u with Notes := Slice.mk (u.Notes.elems ++ [created]) }
          else u) ∧
      (rootResolver.Notes (rootResolver.CreateNote users ⟨userID, note⟩).users ⟨userID⟩).err
        = none ∧
      (rootResolver.Notes (rootResolver.CreateNote users ⟨userID, note⟩).users
        ⟨userID⟩).val.elems.getLast? = some ⟨some created⟩ := by
  have hnote := createLoop_note_of_match ⟨userID, note⟩ users none h
  have husers : (rootResolver.CreateNote users ⟨userID, note⟩).users =
      users.map (fun u =>
        if u.UserID = userID then
          { u with Notes := Slice.mk (u.Notes.elems ++ [⟨"n-010", note.Data⟩]) }
        else u) := by
    show (createLoop ⟨userID, note⟩ users none).1 = _
    rw [createLoop_users]
    apply List.map_congr_left
    intro u _
    by_cases hu : userID = u.UserID
    · simp [hu]
    · have hu2 : ¬ u.UserID = userID := fun e => hu e.symm
      simp [hu, hu2]
  refine ⟨rfl, ⟨"n-010", note.Data⟩, rfl, ?_, rfl, husers, ?_⟩
  · show some (⟨(createLoop ⟨userID, note⟩ users none).2⟩ : NoteResolver) = _
    rw [hnote]
  · rw [husers]
    have hsome : (users.find? (fun v => decide (userID = v.UserID))).isSome := by
      rw [List.find?_isSome]
      obtain ⟨u, hu, hid⟩ := h
      exact ⟨u, hu, by simp [hid]⟩
    obtain ⟨w, hw⟩ := Option.isSome_iff_exists.mp hsome
    have hwid : w.UserID = userID := (of_decide_eq_true (List.find?_eq_some.mp hw).1).symm
    have hfind : (users.map (fun u =>
        if u.UserID = userID then
          { u with Notes := Slice.mk (u.Notes.elems ++ [⟨"n-010", note.Data⟩]) }
        else u)).find? (fun v => decide (userID = v.UserID))
        = some { w with Notes := Slice.mk (w.Notes.elems ++ [⟨"n-010", note.Data⟩]) } := by
      rw [List.find?_map]
      have hcomp : ((fun v : User => decide (userID = v.UserID)) ∘ fun u : User =>
          if u.UserID = userID then
            { u with Notes := Slice.mk (u.Notes.elems ++ [⟨"n-010", note.Data⟩]) }
          else u) = fun v => decide (userID = v.UserID) := by
        funext u
        by_cases hu : u.UserID = userID <;> simp [hu]
      rw [hcomp, hw]
      simp [hwid]
    obtain ⟨herr, hval⟩ := Notes_of_find _ userID _ hfind
    refine ⟨herr, ?_⟩
    rw [hval]
    simp [Slice.elems]

/-- The instance of `CreateNote_appends` that the demo mutation runs: user "u-003" on the
initial store. -/
theorem CreateNote_appends_witness :
    (∃ u ∈ Main5.users, u.UserID = "u-003") ∧
    (rootResolver.CreateNote Main5.users ⟨"u-003", ⟨"We created a note!"⟩⟩).err = none :=
  ⟨by decide, (CreateNote_appends Main5.users "u-003" ⟨"We created a note!"⟩ (by decide)).1⟩

/-- C3: for every user, `UserResolver.Notes` returns as many resolvers as the user has
notes, and at every index the resolver's `(NoteID(), Data())` are the `(NoteID, Data)` of
the stored note at that index; a user with no notes gets a list with no elements; and on
the initial store `Notes` for "u-001" returns, with a nil error, resolvers of the notes
n-001, n-002, n-003 in that order. -/
theorem UserResolver_Notes_storage_order (user : User) :
    (UserResolver.Notes ⟨user⟩).elems.length = user.Notes.elems.length ∧
    (∀ i : Nat,
      ((UserResolver.Notes ⟨user⟩).elems[i]?).map (fun nr => (nr.NoteID, nr.Data))
        = (user.Notes.elems[i]?).map (fun n => (some n.NoteID, some n.Data))) ∧
    (user.Notes.elems = [] →
      UserResolver.Notes ⟨user⟩ = Slice.nil ∧ (UserResolver.Notes ⟨user⟩).elems = []) ∧
    (rootResolver.Notes Main5.users ⟨"u-001"⟩).err = none ∧
    (rootResolver.Notes Main5.users ⟨"u-001"⟩).val.elems.map NoteResolver.NoteID
      = [some "n-001", some "n-002", some "n-003"] ∧
    (rootResolver.Notes Main5.users ⟨"u-001"⟩).val =
      Slice.mk [⟨some ⟨"n-001", "OlÃ¡ Mundo!"⟩⟩,
                ⟨some ⟨"n-002", "OlÃ¡ novamente, mundo!"⟩⟩,
                ⟨some ⟨"n-003", "OlÃ¡, escuridÃ£o!"⟩⟩] := by
  have hel := UserResolver_Notes_elems ⟨user⟩
  refine ⟨?_, ?_, ?_, by decide, by decide, by decide⟩
  · rw [hel]
    simp
  · intro i
    rw [hel]
    simp only [List.getElem?_map, Option.map_map]
    rfl
  · intro hnil
    refine ⟨?_, ?_⟩
    · unfold UserResolver.Notes
      rw [hnil]
      rfl
    · rw [hel]
      simp [hnil]

/-- The instance of `UserResolver_Notes_storage_order` at a user without notes. -/
theorem UserResolver_Notes_storage_order_witness :
    UserResolver.Notes ⟨⟨"u-100", "nobody", "", Slice.mk []⟩⟩ = Slice.nil ∧
    (UserResolver.Notes ⟨⟨"u-100", "nobody", "", Slice.mk []⟩⟩).elems = [] :=
  (UserResolver_Notes_storage_order ⟨"u-100", "nobody", "", Slice.mk []⟩).2.2.1 rfl

/-- C4: each read-only resolver of `main-5` (`Users`, `User`, `Notes`, `Note`) leaves
`users` as it found it, and invoking it again with the same argument on the store it left
returns the same value and the same error. -/
theorem read_only_resolvers_repeatable (users : List User) (userID noteID : ID) :
    ((rootResolver.Users users).users = users ∧
      (rootResolver.Users (rootResolver.Users users).users).val
        = (rootResolver.Users users).val ∧
      (rootResolver.Users (rootResolver.Users users).users).err
        = (rootResolver.Users users).err) ∧
    ((rootResolver.User users ⟨userID⟩).users = users ∧
      (rootResolver.User (rootResolver.User users ⟨userID⟩).users ⟨userID⟩).val
        = (rootResolver.User users ⟨userID⟩).val ∧
      (rootResolver.User (rootResolver.User users ⟨userID⟩).users ⟨userID⟩).err
        = (rootResolver.User users ⟨userID⟩).err) ∧
    ((rootResolver.Notes users ⟨userID⟩).users = users ∧
      (rootResolver.Notes (rootResolver.Notes users ⟨userID⟩).users ⟨userID⟩).val
        = (rootResolver.Notes users ⟨userID⟩).val ∧
      (rootResolver.Notes (rootResolver.Notes users ⟨userID⟩).users ⟨userID⟩).err
        = (rootResolver.Notes users ⟨userID⟩).err) ∧
    ((rootResolver.Note users ⟨noteID⟩).users = users ∧
      (rootResolver.Note (rootResolver.Note users ⟨noteID⟩).users ⟨noteID⟩).val
        = (rootResolver.Note users ⟨noteID⟩).val ∧
      (rootResolver.Note (rootResolver.Note users ⟨noteID⟩).users ⟨noteID⟩).err
        = (rootResolver.Note users ⟨noteID⟩).err) := by
  have hNotes : (rootResolver.Notes users ⟨userID⟩).users = users := by
    dsimp only [rootResolver.Notes]
    split <;> rfl
  refine ⟨⟨rfl, rfl, rfl⟩, ⟨rfl, rfl, rfl⟩, ⟨hNotes, ?_, ?_⟩, ⟨rfl, rfl, rfl⟩⟩
  · rw [hNotes]
  · rw [hNotes]

/-- C9 fails on `CreateNote`: on the initial store, for a `UserID` that no user has, it
returns with a nil error a non-nil resolver whose `note` is nil, leaving the store as it
was, and `NoteID()` and `Data()` on that resolver dereference nil. -/
theorem CreateNote_unknown_user_wraps_nil :
    (∀ u ∈ Main5.users, u.UserID ≠ "u-404") ∧
    (rootResolver.CreateNote Main5.users ⟨"u-404", ⟨"We created a note!"⟩⟩).val
      = some ⟨none⟩ ∧
    (rootResolver.CreateNote Main5.users ⟨"u-404", ⟨"We created a note!"⟩⟩).err = none ∧
    (rootResolver.CreateNote Main5.users ⟨"u-404", ⟨"We created a note!"⟩⟩).users
      = Main5.users ∧
    NoteResolver.NoteID ⟨none⟩ = none ∧
    NoteResolver.Data ⟨none⟩ = none := by
  decide

end Main5

/-! ## Lookups that find nothing, in main-4 and main-5 -/

/-- C2: a lookup that finds nothing is a silent null. For an ID that no stored user (resp.
no stored note) has, `User` and `Note` of `main-4` return `User{}` and `Note{}` with a nil
error, and `User` and `Note` of `main-5` return a nil resolver with a nil error; and on no
store and no argument does any of the four return a non-nil error. -/
theorem lookup_not_found_is_silent (us4 : List Main4.User) (us5 : List Main5.User) (id : ID) :
    ((∀ u ∈ us4, u.UserID ≠ id) →
      Main4.rootResolver.User us4 ⟨id⟩ = (Main4.User.zero, none)) ∧
    ((∀ u ∈ us4, ∀ n ∈ u.Notes.elems, n.NoteID ≠ id) →
      Main4.rootResolver.Note us4 ⟨id⟩ = (Main4.Note.zero, none)) ∧
    ((∀ u ∈ us5, u.UserID ≠ id) →
      (Main5.rootResolver.User us5 ⟨id⟩).val = none ∧
      (Main5.rootResolver.User us5 ⟨id⟩).err = none) ∧
    ((∀ u ∈ us5, ∀ n ∈ u.Notes.elems, n.NoteID ≠ id) →
      (Main5.rootResolver.Note us5 ⟨id⟩).val = none ∧
      (Main5.rootResolver.Note us5 ⟨id⟩).err = none) ∧
    (Main4.rootResolver.User us4 ⟨id⟩).2 = none ∧
    (Main4.rootResolver.Note us4 ⟨id⟩).2 = none ∧
    (Main5.rootResolver.User us5 ⟨id⟩).err = none ∧
    (Main5.rootResolver.Note us5 ⟨id⟩).err = none := by
  refine ⟨?_, ?_, ?_, ?_, Main4.userLoop_err _ _, Main4.noteLoop_err _ _,
    Main5.userLoop_no_error _ _, Main5.noteLoop_no_error _ _⟩
  · intro h
    have hfind : us4.find? (fun u => decide (id = u.UserID)) = none := by
      rw [List.find?_eq_none]
      intro u hu
      simpa using fun e : id = u.UserID => h u hu e.symm
    apply Prod.ext
    · show (Main4.userLoop ⟨id⟩ us4).1 = _
      rw [Main4.userLoop_fst]
      simp only [hfind]
    · exact Main4.userLoop_err _ _
  · intro h
    have hfind : (us4.flatMap (fun u => u.Notes.elems)).find?
        (fun n => decide (id = n.NoteID)) = none := by
      rw [List.find?_eq_none]
      intro n hn
      obtain ⟨u, hu, hnu⟩ := List.mem_flatMap.mp hn
      simpa using fun e : id = n.NoteID => h u hu n hnu e.symm
    apply Prod.ext
    · show (Main4.noteLoop ⟨id⟩ us4).1 = _
      rw [Main4.noteLoop_fst]
      simp only [hfind]
    · exact Main4.noteLoop_err _ _
  · intro h
    have hfind : us5.find? (fun u => decide (id = u.UserID)) = none := by
      rw [List.find?_eq_none]
      intro u hu
      simpa using fun e : id = u.UserID => h u hu e.symm
    refine ⟨?_, Main5.userLoop_no_error _ _⟩
    show (Main5.userLoop ⟨id⟩ us5).1 = none
    rw [Main5.userLoop_val, hfind]
    rfl
  · intro h
    have hfind : (us5.flatMap (fun u => u.Notes.elems)).find?
        (fun n => decide (id = n.NoteID)) = none := by
      rw [List.find?_eq_none]
      intro n hn
      obtain ⟨u, hu, hnu⟩ := List.mem_flatMap.mp hn
      simpa using fun e : id = n.NoteID => h u hu n hnu e.symm
    refine ⟨?_, Main5.noteLoop_no_error _ _⟩
    show (Main5.noteLoop ⟨id⟩ us5).1 = none
    rw [Main5.noteLoop_val, hfind]
    rfl

/-- The instance of `lookup_not_found_is_silent` at the two initial stores and the ID
"x-404", which no stored user and no stored note has. -/
theorem lookup_not_found_is_silent_witness :
    Main4.rootResolver.User Main4.users ⟨"x-404"⟩ = (Main4.User.zero, none) ∧
    Main4.rootResolver.Note Main4.users ⟨"x-404"⟩ = (Main4.Note.zero, none) ∧
    ((Main5.rootResolver.User Main5.users ⟨"x-404"⟩).val = none ∧
      (Main5.rootResolver.User Main5.users ⟨"x-404"⟩).err = none) ∧
    ((Main5.rootResolver.Note Main5.users ⟨"x-404"⟩).val = none ∧
      (Main5.rootResolver.Note Main5.users ⟨"x-404"⟩).err = none) :=
  ⟨(lookup_not_found_is_silent Main4.users Main5.users "x-404").1 (by decide),
   (lookup_not_found_is_silent Main4.users Main5.users "x-404").2.1 (by decide),
   (lookup_not_found_is_silent Main4.users Main5.users "x-404").2.2.1 (by decide),
   (lookup_not_found_is_silent Main4.users Main5.users "x-404").2.2.2.1 (by decide)⟩
